import Mathlib

/-!
Shallow embedding of the vector-editor core of `template-forge-creative`
(file `src/src/pages/Editor.tsx`): transform-attribute parsing, style
resolution, the SVG-to-canvas importer, the pointer-interaction handlers,
the save-time property allow-list, and a spec-level document codec.

Modelling conventions:
* JavaScript numbers are `JsNum := Option ℚ`; `none` plays the role of
  `NaN` (and of `undefined` flowing into arithmetic).  Non-finite results
  are also collapsed to `none`; the embedded code never divides by zero on
  the paths the theorems touch.
* `Math.cos((angle * Math.PI) / 180)` and the matching `sin`/`atan2`
  expressions have no exact counterpart on `ℚ` and are taken as explicit
  function parameters (`cosDeg`, `sinDeg`, `atan2Deg`).
* Browser-computed style (`window.getComputedStyle`) is external input and
  is carried on each element as a `ComputedStyleRec`.
-/

namespace TemplateForge

/-- A JavaScript number: `none` models `NaN`. -/
abbrev JsNum := Option ℚ

def jsAdd : JsNum → JsNum → JsNum
  | some a, some b => some (a + b)
  | _, _ => none

def jsSub : JsNum → JsNum → JsNum
  | some a, some b => some (a - b)
  | _, _ => none

def jsMul : JsNum → JsNum → JsNum
  | some a, some b => some (a * b)
  | _, _ => none

/-- Division of JavaScript numbers; a zero divisor would give a non-finite
result, collapsed to `none` here. -/
def jsDiv : JsNum → JsNum → JsNum
  | some a, some b => if b = 0 then none else some (a / b)
  | _, _ => none

def jsNeg : JsNum → JsNum
  | some a => some (-a)
  | none => none

/-- JavaScript truthiness of a number: `0` and `NaN` are falsy. -/
def jsTruthyN : JsNum → Bool
  | some q => if q = 0 then false else true
  | none => false

/-- JavaScript truthiness of a nullable string: `null`/`undefined` and the
empty string are falsy. -/
def jsTruthyS : Option String → Bool
  | some s => if s = "" then false else true
  | none => false

/-- JavaScript `a || b` for a nullable string `a`. -/
def jsOrS (a : Option String) (b : String) : String :=
  match a with
  | some s => if s = "" then b else s
  | none => b

/-- JavaScript `a || b` for a number `a` (`NaN` and `0` fall back). -/
def jsNumOr (a : JsNum) (b : ℚ) : ℚ :=
  match a with
  | some q => if q = 0 then b else q
  | none => b

/-! ### Character-level string machinery (JS `split`, `trim`, regex capture) -/

def isWsChar (c : Char) : Bool :=
  c == ' ' || c == '\t' || c == '\n' || c == '\r'

def isWsComma (c : Char) : Bool :=
  isWsChar c || c == ','

/-- JS `String.prototype.split` with a one-character separator. -/
def splitChL (sep : Char) : List Char → List (List Char)
  | [] => [[]]
  | c :: rest =>
    if c = sep then [] :: splitChL sep rest
    else
      match splitChL sep rest with
      | t :: ts => (c :: t) :: ts
      | [] => [[c]]

def splitCh (sep : Char) (s : String) : List String :=
  (splitChL sep s.data).map (fun l => String.mk l)

/-- JS `String.prototype.split` with a character-class regex such as
`/[\s,]+/`: every maximal run of separator characters is one cut.
(Fuel-driven so that the recursion is structural; the fuel is the length
of the input, which always suffices.) -/
def splitRunsAux (p : Char → Bool) : ℕ → List Char → List (List Char)
  | 0, l => [l]
  | fuel + 1, l =>
    let tok := l.takeWhile (fun c => !(p c))
    match l.dropWhile (fun c => !(p c)) with
    | [] => [tok]
    | _ :: rest => tok :: splitRunsAux p fuel (rest.dropWhile p)

def splitRuns (p : Char → Bool) (l : List Char) : List (List Char) :=
  splitRunsAux p l.length l

/-- JS `String.prototype.trim`. -/
def trimJs (s : String) : String :=
  String.mk (((s.data.dropWhile isWsChar).reverse.dropWhile isWsChar).reverse)

def myToLowerC (c : Char) : Char :=
  if 'A' ≤ c ∧ c ≤ 'Z' then Char.ofNat (c.toNat + 32) else c

/-- JS `String.prototype.toLowerCase` (ASCII fragment, which is all the
source compares against). -/
def toLowerJs (s : String) : String := String.mk (s.data.map myToLowerC)

def stripPfx : List Char → List Char → Option (List Char)
  | [], s => some s
  | _ :: _, [] => none
  | p :: ps, c :: cs => if p = c then stripPfx ps cs else none

/-- JS `String.prototype.includes`. -/
def containsSub (pat : List Char) : List Char → Bool
  | [] => pat.isEmpty
  | c :: rest => (stripPfx pat (c :: rest)).isSome || containsSub pat rest

/-! ### JS numeric parsing (`Number(...)`, `parseFloat(...)`) over ℚ -/

def digitsVal (l : List Char) : ℕ :=
  l.foldl (fun n c => 10 * n + (c.toNat - 48)) 0

/-- Syntactic parts of a decimal literal: sign, integer-part digits,
fraction digits with their count, exponent. -/
structure NumParts where
  neg : Bool
  ip : ℕ
  fp : ℕ
  fpLen : ℕ
  ex : ℤ
deriving DecidableEq

/-- The rational value of a parsed decimal literal. -/
def partsVal (p : NumParts) : ℚ :=
  (if p.neg then -1 else 1) * ((p.ip : ℚ) + (p.fp : ℚ) / (10 : ℚ) ^ p.fpLen)
    * (10 : ℚ) ^ p.ex

/-- Exponent part of a numeric literal (`e`/`E` already consumed):
sign, digits.  With no digits the exponent marker is not part of the
number and parsing resumes before it. -/
def parseExpPart (r : List Char) (orig : List Char) : ℤ × List Char :=
  let (es, r1) : ℤ × List Char :=
    match r with
    | '-' :: r2 => (-1, r2)
    | '+' :: r2 => (1, r2)
    | _ => (1, r)
  let ed := r1.takeWhile Char.isDigit
  if ed.isEmpty then (0, orig)
  else (es * (digitsVal ed : ℤ), r1.dropWhile Char.isDigit)

/-- Longest decimal-literal prefix of a character list: optional sign,
integer digits, optional fraction, optional exponent.  Returns the parts
and the unconsumed remainder; `none` when no digits are found.  (Hex and
`Infinity` literals of JS are not representable on ℚ and parse as
`none`, i.e. `NaN`.) -/
def parseNumParts (l : List Char) : Option (NumParts × List Char) :=
  let (sgn, l1) : Bool × List Char :=
    match l with
    | '-' :: r => (true, r)
    | '+' :: r => (false, r)
    | _ => (false, l)
  let ip := l1.takeWhile Char.isDigit
  let l2 := l1.dropWhile Char.isDigit
  let (fp, l3) : List Char × List Char :=
    match l2 with
    | '.' :: r => (r.takeWhile Char.isDigit, r.dropWhile Char.isDigit)
    | _ => ([], l2)
  if ip.isEmpty && fp.isEmpty then none
  else
    let (ex, l4) : ℤ × List Char :=
      match l3 with
      | 'e' :: r => parseExpPart r l3
      | 'E' :: r => parseExpPart r l3
      | _ => (0, l3)
    some (⟨sgn, digitsVal ip, digitsVal fp, fp.length, ex⟩, l4)

def parseNum (l : List Char) : Option (ℚ × List Char) :=
  (parseNumParts l).map (fun pr => (partsVal pr.1, pr.2))

/-- JS `parseFloat`: skips leading whitespace, parses the longest numeric
prefix, ignores the rest; `NaN` when no number can be read. -/
def jsParseFloat (s : String) : JsNum :=
  match parseNum (s.data.dropWhile isWsChar) with
  | some (q, _) => some q
  | none => none

/-- JS `Number(...)`: trims whitespace, maps the empty string to `0`, and
requires the whole remaining string to be a numeric literal. -/
def jsNumber (s : String) : JsNum :=
  let t := ((s.data.dropWhile isWsChar).reverse.dropWhile isWsChar).reverse
  if t.isEmpty then some 0
  else
    match parseNum t with
    | some (q, []) => some q
    | _ => none

/-- First match of the regex `kw\(([^)]+)\)` in a string, returning the
capture group: the engine tries every start position in order; at a given
position the keyword and an opening parenthesis must match literally,
then a non-empty maximal run of non-`)` characters, then a literal `)`. -/
def matchCapture (kw : List Char) : List Char → Option (List Char)
  | [] => none
  | c :: rest =>
    match stripPfx (kw ++ ['(']) (c :: rest) with
    | some after =>
      let cap := after.takeWhile (fun ch => !(ch == ')'))
      match after.dropWhile (fun ch => !(ch == ')')) with
      | [] => matchCapture kw rest
      | _ :: _ => if cap.isEmpty then matchCapture kw rest else some cap
    | none => matchCapture kw rest

theorem stripPfx_mem {p s r : List Char} (h : stripPfx p s = some r) :
    ∀ x ∈ r, x ∈ s := by
  induction p generalizing s with
  | nil =>
    simp only [stripPfx, Option.some.injEq] at h
    subst h; exact fun x hx => hx
  | cons p ps ih =>
    cases s with
    | nil => simp [stripPfx] at h
    | cons c cs =>
      simp only [stripPfx] at h
      split at h
      · exact fun x hx => List.mem_cons_of_mem _ (ih h x hx)
      · exact absurd h (by simp)

theorem dropWhile_ne_paren {l : List Char} (h : ')' ∉ l) :
    l.dropWhile (fun ch => !(ch == ')')) = [] := by
  rw [List.dropWhile_eq_nil_iff]
  intro x hx
  simp only [Bool.not_eq_true', beq_eq_false_iff_ne, ne_eq]
  exact fun hpar => h (hpar ▸ hx)

theorem matchCapture_of_not_mem {kw s : List Char} (h : ')' ∉ s) :
    matchCapture kw s = none := by
  induction s with
  | nil => simp [matchCapture]
  | cons c rest ih =>
    have hr : ')' ∉ rest := fun hm => h (List.mem_cons_of_mem _ hm)
    rw [matchCapture]
    cases hstrip : stripPfx (kw ++ ['(']) (c :: rest) with
    | none => exact ih hr
    | some after =>
      have hafter : ')' ∉ after := fun hm => h (stripPfx_mem hstrip _ hm)
      simp only [dropWhile_ne_paren hafter]
      exact ih hr

theorem splitChL_ne_nil (sep : Char) (l : List Char) : splitChL sep l ≠ [] := by
  induction l with
  | nil => simp [splitChL]
  | cons c rest ih =>
    rw [splitChL]
    split
    · simp
    · cases hsp : splitChL sep rest with
      | nil => exact absurd hsp ih
      | cons t ts => simp

theorem mem_splitChL_not_mem (sep : Char) (l : List Char) :
    ∀ t ∈ splitChL sep l, sep ∉ t := by
  induction l with
  | nil =>
    intro t ht
    simp only [splitChL, List.mem_singleton] at ht
    simp [ht]
  | cons c rest ih =>
    intro t ht
    rw [splitChL] at ht
    split at ht
    · rcases List.mem_cons.mp ht with h1 | h2
      · simp [h1]
      · exact ih t h2
    · rename_i hc
      cases hsp : splitChL sep rest with
      | nil => exact absurd hsp (splitChL_ne_nil sep rest)
      | cons hd tl =>
        rw [hsp] at ht
        rcases List.mem_cons.mp ht with h1 | h2
        · subst h1
          intro hmem
          rcases List.mem_cons.mp hmem with h3 | h4
          · exact hc h3.symm
          · exact ih hd (hsp ▸ List.mem_cons_self hd tl) h4
        · exact ih t (hsp ▸ List.mem_cons_of_mem hd h2)

/-! ### The transform-attribute parser (`parseTransform`, Editor.tsx 158–192) -/

/-- The mutable `matrix` object of `parseTransform`:
`x' = a·x + c·y + e`, `y' = b·x + d·y + f`. -/
structure TransformMatrix where
  a : JsNum
  b : JsNum
  c : JsNum
  d : JsNum
  e : JsNum
  f : JsNum
deriving DecidableEq

/-- The initial value `{a: 1, b: 0, c: 0, d: 1, e: 0, f: 0}`. -/
def idMatrix : TransformMatrix :=
  ⟨some 1, some 0, some 0, some 1, some 0, some 0⟩

def kwTranslate : List Char := "translate".data
def kwScale : List Char := "scale".data
def kwRotate : List Char := "rotate".data

/-- `t.match(/kw\(([^)]+)\)/)?.[1].split(/[\s,]+/).map(Number)`. -/
def capturedNums (kw : List Char) (t : List Char) : Option (List JsNum) :=
  (matchCapture kw t).map
    (fun cap => (splitRuns isWsComma cap).map (fun w => jsNumber (String.mk w)))

/-- Array destructuring with a `|| [defaults]` fallback: reading past the
end of the array gives `undefined`, which behaves as `NaN` in the
arithmetic that follows. -/
def numsAt (nums : Option (List JsNum)) (i : ℕ) (dflt : ℚ) : JsNum :=
  match nums with
  | some arr =>
    match arr[i]? with
    | some v => v
    | none => none
  | none => some dflt

/-- One iteration of the `transforms.forEach` loop of `parseTransform`. -/
def transformStep (cosDeg sinDeg : JsNum → JsNum) (m : TransformMatrix)
    (t : List Char) : TransformMatrix :=
  if containsSub kwTranslate t then
    let nums := capturedNums kwTranslate t
    { m with e := jsAdd m.e (numsAt nums 0 0), f := jsAdd m.f (numsAt nums 1 0) }
  else if containsSub kwScale t then
    let nums := capturedNums kwScale t
    { m with a := jsMul m.a (numsAt nums 0 1), d := jsMul m.d (numsAt nums 1 1) }
  else if containsSub kwRotate t then
    let nums := capturedNums kwRotate t
    let angle := numsAt nums 0 0
    let cx := numsAt nums 1 0
    let cy := numsAt nums 2 0
    -- rad = (angle * π) / 180; cos = Math.cos(rad); sin = Math.sin(rad)
    let cos := cosDeg angle
    let sin := sinDeg angle
    let m1 : TransformMatrix := { m with a := cos, b := sin, c := jsNeg sin, d := cos }
    if jsTruthyN cx || jsTruthyN cy then
      { m1 with
        e := jsSub cx (jsSub (jsMul cx cos) (jsMul cy sin)),
        f := jsSub cy (jsAdd (jsMul cx sin) (jsMul cy cos)) }
    else m1
  else m

/-- Embedding of `parseTransform` (Editor.tsx 158–192).  The source splits
the attribute on `)` and then matches each fragment against regexes that
require a literal `)`, so the numeric captures can never succeed; the
fragments are folded over the matrix exactly as in the source. -/
def parseTransform (cosDeg sinDeg : JsNum → JsNum) (transform : String) :
    TransformMatrix :=
  if transform = "" then idMatrix
  else (splitChL ')' transform.data).foldl (transformStep cosDeg sinDeg) idMatrix

theorem capturedNums_of_not_paren {kw t : List Char} (h : ')' ∉ t) :
    capturedNums kw t = none := by
  simp [capturedNums, matchCapture_of_not_mem h]

theorem transformStep_id {cosDeg sinDeg : JsNum → JsNum}
    (hc : cosDeg (some 0) = some 1) (hs : sinDeg (some 0) = some 0)
    {t : List Char} (ht : ')' ∉ t) :
    transformStep cosDeg sinDeg idMatrix t = idMatrix := by
  rw [transformStep]
  split
  · simp [capturedNums_of_not_paren ht, numsAt, idMatrix, jsAdd]
  · split
    · simp [capturedNums_of_not_paren ht, numsAt, idMatrix, jsMul]
    · split
      · simp [capturedNums_of_not_paren ht, numsAt, hc, hs, idMatrix, jsNeg,
          jsTruthyN]
      · rfl

theorem foldl_transformStep_id {cosDeg sinDeg : JsNum → JsNum}
    (hc : cosDeg (some 0) = some 1) (hs : sinDeg (some 0) = some 0)
    (L : List (List Char)) (hL : ∀ t ∈ L, ')' ∉ t) :
    L.foldl (transformStep cosDeg sinDeg) idMatrix = idMatrix := by
  induction L with
  | nil => rfl
  | cons t ts ih =>
    rw [List.foldl_cons, transformStep_id hc hs (hL t (List.mem_cons_self t ts))]
    exact ih (fun u hu => hL u (List.mem_cons_of_mem t hu))

theorem parseTransform_eq_id {cosDeg sinDeg : JsNum → JsNum}
    (hc : cosDeg (some 0) = some 1) (hs : sinDeg (some 0) = some 0)
    (transform : String) :
    parseTransform cosDeg sinDeg transform = idMatrix := by
  rw [parseTransform]
  split
  · rfl
  · exact foldl_transformStep_id hc hs _ (mem_splitChL_not_mem ')' transform.data)

/-- Claim C2 is false as stated: under left-to-right matrix composition a
lone `translate(10,20)` token must put `10` into the `e` translation term,
but the parser returns `e = 0` (splitting the attribute on `)` removes the
closing parenthesis its regexes require, so every numeric capture fails
and the defaults apply). -/
theorem parseTransform_counterexample :
    (parseTransform (fun _ => some 1) (fun _ => some 0) "translate(10,20)").e
      = some 0 ∧
    (parseTransform (fun _ => some 1) (fun _ => some 0) "translate(10,20)").e
      ≠ some 10 := by
  have h := @parseTransform_eq_id (fun _ => some 1) (fun _ => some 0)
    rfl rfl "translate(10,20)"
  rw [h]
  refine ⟨rfl, ?_⟩
  simp [idMatrix]

/-- Claim C2 (amended): `parseTransform` does not combine tokens by matrix
multiplication.  Splitting the attribute on `)` makes every numeric regex
capture fail, so `translate`/`scale` tokens leave the matrix unchanged,
`rotate` tokens reset the linear part to the identity rotation (angle 0)
leaving the translation terms alone, and unrecognized tokens are ignored
without error: for every transform string the result is the identity
matrix. -/
theorem parseTransform_always_identity (cosDeg sinDeg : JsNum → JsNum)
    (hc : cosDeg (some 0) = some 1) (hs : sinDeg (some 0) = some 0)
    (transform : String) :
    parseTransform cosDeg sinDeg transform = idMatrix :=
  parseTransform_eq_id hc hs transform

/-- Witness for the amended Claim C2 at a concrete transform string. -/
theorem parseTransform_always_identity_witness :
    (fun _ => (some 1 : JsNum)) (some 0) = some 1 ∧
    (fun _ => (some 0 : JsNum)) (some 0) = some 0 ∧
    parseTransform (fun _ => some 1) (fun _ => some 0)
      "rotate(45 10 20) scale(2) translate(5,6) skewX(30)" = idMatrix :=
  ⟨rfl, rfl,
    parseTransform_always_identity (fun _ => some 1) (fun _ => some 0) rfl rfl _⟩

/-! ### The element model

A parsed markup element: tag, attribute list, browser-computed style
(`window.getComputedStyle`, which is external input), text content and
children. -/

structure ComputedStyleRec where
  display : String := ""
  visibility : String := ""
  fill : String := ""
  stroke : String := ""
  strokeWidth : String := ""
  opacity : String := ""
  fillOpacity : String := ""
deriving DecidableEq

inductive Element
  | mk (tagName : String) (attrs : List (String × String))
       (computed : ComputedStyleRec) (textContent : String)
       (children : List Element)

def Element.tagName : Element → String
  | .mk t _ _ _ _ => t

def Element.attrs : Element → List (String × String)
  | .mk _ a _ _ _ => a

def Element.computed : Element → ComputedStyleRec
  | .mk _ _ c _ _ => c

def Element.textContent : Element → String
  | .mk _ _ _ x _ => x

def Element.children : Element → List Element
  | .mk _ _ _ _ cs => cs

/-- DOM `getAttribute`: `none` models `null`. -/
def getAttribute (el : Element) (name : String) : Option String :=
  (el.attrs.find? (fun p => p.1 == name)).map Prod.snd

/-! ### Style resolution (`getComputedStyle` helper, Editor.tsx 115–155) -/

/-- The `styleAttr.split(';').reduce(...)` object.  JS object insertion
with a duplicate key overwrites; modelled by prepending and reading the
first hit, which yields the same lookups. -/
def parseStyleAttr (styleAttr : String) : List (String × String) :=
  (splitCh ';' styleAttr).foldl
    (fun acc st =>
      let parts := (splitCh ':' st).map trimJs
      let key := parts.getD 0 ""
      let value := parts.getD 1 ""
      if key ≠ "" ∧ value ≠ "" then (key, value) :: acc else acc)
    []

/-- JS object property read (`obj[key]`), `none` for `undefined`. -/
def jsObjGet (obj : List (String × String)) (k : String) : Option String :=
  (obj.find? (fun p => p.1 == k)).map Prod.snd

structure ResolvedStyle where
  fill : String
  stroke : String
  strokeWidth : ℚ
  opacity : ℚ
  fillOpacity : ℚ
  transform : String
deriving DecidableEq

/-- Embedding of the `getComputedStyle` helper of `convertSVGToFabric`
(Editor.tsx 115–155).  In the source, `parsedStyle['fill'] ||
fill !== 'none' ? fill : 'transparent'` parses as
`(parsedStyle['fill'] || (fill !== 'none')) ? fill : 'transparent'`
(`!==` binds tighter than `||`, which binds tighter than `?:`), so the
inline declared value is only a truthiness test and the returned string
is `fill` (presentation attribute, falling back to computed style). -/
def getComputedStyle (el : Element) : ResolvedStyle :=
  let fill := jsOrS (getAttribute el "fill") el.computed.fill
  let stroke := jsOrS (getAttribute el "stroke") el.computed.stroke
  let strokeWidth := jsOrS (getAttribute el "stroke-width") el.computed.strokeWidth
  let opacity := jsOrS (getAttribute el "opacity") el.computed.opacity
  let fillOpacity := jsOrS (getAttribute el "fill-opacity") el.computed.fillOpacity
  let parsedStyle :=
    match getAttribute el "style" with
    | some s => if s = "" then [] else parseStyleAttr s
    | none => []
  { fill :=
      if jsTruthyS (jsObjGet parsedStyle "fill") || !(fill == "none") then fill
      else "transparent"
    stroke :=
      if jsTruthyS (jsObjGet parsedStyle "stroke") || !(stroke == "none") then stroke
      else "transparent"
    strokeWidth := jsNumOr (jsParseFloat (jsOrS (jsObjGet parsedStyle "stroke-width") strokeWidth)) 0
    opacity := jsNumOr (jsParseFloat (jsOrS (jsObjGet parsedStyle "opacity") opacity)) 1
    fillOpacity := jsNumOr (jsParseFloat (jsOrS (jsObjGet parsedStyle "fill-opacity") fillOpacity)) 1
    transform := jsOrS (getAttribute el "transform") "" }

/-- The element `<rect style="fill:red" fill="blue"/>`. -/
def styleBugElement : Element :=
  .mk "rect" [("style", "fill:red"), ("fill", "blue")] {} "" []

/-- Claim C5 fails on the code (code bug): for
`<rect style="fill:red" fill="blue"/>` the inline style block declares
`red`, which the claimed priority order makes the resolved fill; the code
resolves `blue` because the missing parentheses turn the inline declared
value into a mere truthiness test. -/
theorem style_inline_fill_ignored :
    (getComputedStyle styleBugElement).fill = "blue" ∧
    (getComputedStyle styleBugElement).fill ≠ "red" := by
  constructor <;> decide

/-! ### Fit-to-canvas scale (`convertSVGToFabric`, Editor.tsx 97–112) -/

/-- JS array destructuring read `arr[i]`: out of range gives `undefined`,
which is falsy and behaves as `NaN` in arithmetic, i.e. `none`. -/
def jsIdx (arr : List JsNum) (i : ℕ) : JsNum :=
  match arr[i]? with
  | some v => v
  | none => none

/-- Numeric value under a truthiness guard that ensures the number is
finite (the default is never read on guarded paths). -/
def jsVal (n : JsNum) : ℚ := n.getD 0

/-- The `scale` computation at the top of `convertSVGToFabric`
(Editor.tsx 97–112). -/
def scaleOf (canvasWidth canvasHeight : ℚ) (svgEl : Element) : ℚ :=
  let svgWidth := jsParseFloat (jsOrS (getAttribute svgEl "width") "0")
  let svgHeight := jsParseFloat (jsOrS (getAttribute svgEl "height") "0")
  let viewBox := getAttribute svgEl "viewBox"
  if jsTruthyS viewBox then
    let parts := (splitCh ' ' (jsOrS viewBox "")).map jsNumber
    let vbWidth := jsIdx parts 2
    let vbHeight := jsIdx parts 3
    if jsTruthyN vbWidth && jsTruthyN vbHeight then
      -- scaleX = canvas.width / vbWidth; scaleY = canvas.height / vbHeight;
      -- scale = Math.min(scaleX, scaleY) * 0.8  (the guard makes both finite, non-zero)
      min (canvasWidth / jsVal vbWidth) (canvasHeight / jsVal vbHeight) * (0.8 : ℚ)
    else 1
  else if jsTruthyN svgWidth && jsTruthyN svgHeight then
    min (canvasWidth / jsVal svgWidth) (canvasHeight / jsVal svgHeight) * (0.8 : ℚ)
  else 1

/-- Claim C4: the uniform fit-to-canvas scale is
`min(targetW/width, targetH/height) * 0.8` computed from the viewBox when
one is present, from the explicit width/height attributes when there is
no viewBox but those parse to non-zero numbers, and `1` otherwise. -/
theorem import_scale_formula (cw ch : ℚ) (el : Element) :
    (∀ vb w h, getAttribute el "viewBox" = some vb →
      jsIdx ((splitCh ' ' vb).map jsNumber) 2 = some w → w ≠ 0 →
      jsIdx ((splitCh ' ' vb).map jsNumber) 3 = some h → h ≠ 0 →
      scaleOf cw ch el = min (cw / w) (ch / h) * 0.8) ∧
    (∀ w h, jsTruthyS (getAttribute el "viewBox") = false →
      jsParseFloat (jsOrS (getAttribute el "width") "0") = some w → w ≠ 0 →
      jsParseFloat (jsOrS (getAttribute el "height") "0") = some h → h ≠ 0 →
      scaleOf cw ch el = min (cw / w) (ch / h) * 0.8) ∧
    (jsTruthyS (getAttribute el "viewBox") = false →
      (jsTruthyN (jsParseFloat (jsOrS (getAttribute el "width") "0")) = false ∨
       jsTruthyN (jsParseFloat (jsOrS (getAttribute el "height") "0")) = false) →
      scaleOf cw ch el = 1) := by
  refine ⟨?_, ?_, ?_⟩
  · intro vb w h hvb hw hwne hh hhne
    by_cases hemp : vb = ""
    · subst hemp
      simp [jsIdx, splitCh, splitChL] at hw
    · rw [scaleOf]
      have htr : jsTruthyS (getAttribute el "viewBox") = true := by
        rw [hvb]; simp [jsTruthyS, hemp]
      have hor : jsOrS (getAttribute el "viewBox") "" = vb := by
        rw [hvb]; simp [jsOrS, hemp]
      simp only [htr, if_true, hor, hw, hh]
      have hb : (jsTruthyN (some w) && jsTruthyN (some h)) = true := by
        simp [jsTruthyN, hwne, hhne]
      rw [hb]
      simp [jsVal]
  · intro w h hnovb hw hwne hh hhne
    rw [scaleOf]
    simp only [hnovb, Bool.false_eq_true, if_false, hw, hh]
    have hb : (jsTruthyN (some w) && jsTruthyN (some h)) = true := by
      simp [jsTruthyN, hwne, hhne]
    rw [hb]
    simp [jsVal]
  · intro hnovb hfalse
    rw [scaleOf]
    simp only [hnovb, Bool.false_eq_true, if_false]
    rcases hfalse with hf | hf <;> simp [hf]

/-- The element `<svg viewBox="0 0 100 200"/>`. -/
def svgWithViewBox : Element :=
  .mk "svg" [("viewBox", "0 0 100 200")] {} "" []

/-- Evaluation helper: `Number(s)` from syntactically parsed parts. -/
theorem jsNumber_eq_of_parts (s : String) (p : NumParts)
    (hne : (((s.data.dropWhile isWsChar).reverse.dropWhile isWsChar).reverse).isEmpty
      = false)
    (h : parseNumParts (((s.data.dropWhile isWsChar).reverse.dropWhile
      isWsChar).reverse) = some (p, [])) :
    jsNumber s = some (partsVal p) := by
  rw [jsNumber]
  simp [hne, parseNum, h]

/-- Evaluation helper: `parseFloat(s)` from syntactically parsed parts. -/
theorem jsParseFloat_eq_of_parts (s : String) (p : NumParts) (rest : List Char)
    (h : parseNumParts (s.data.dropWhile isWsChar) = some (p, rest)) :
    jsParseFloat s = some (partsVal p) := by
  rw [jsParseFloat]
  simp [parseNum, h]

theorem jsNumber_vb0 : jsNumber "0" = some 0 := by
  rw [jsNumber_eq_of_parts "0" ⟨false, 0, 0, 0, 0⟩ (by decide) (by decide)]
  norm_num [partsVal]

theorem jsNumber_vb100 : jsNumber "100" = some 100 := by
  rw [jsNumber_eq_of_parts "100" ⟨false, 100, 0, 0, 0⟩ (by decide) (by decide)]
  norm_num [partsVal]

theorem jsNumber_vb200 : jsNumber "200" = some 200 := by
  rw [jsNumber_eq_of_parts "200" ⟨false, 200, 0, 0, 0⟩ (by decide) (by decide)]
  norm_num [partsVal]

/-- Witness for Claim C4: an 800×1000 canvas and viewBox width 100,
height 200 give scale `min(8,5)*0.8 = 4`. -/
theorem import_scale_formula_witness :
    getAttribute svgWithViewBox "viewBox" = some "0 0 100 200" ∧
    scaleOf 800 1000 svgWithViewBox = 4 := by
  have hsplit : splitCh ' ' "0 0 100 200" = ["0", "0", "100", "200"] := by decide
  have h2 : jsIdx ((splitCh ' ' "0 0 100 200").map jsNumber) 2 = some 100 := by
    rw [hsplit]
    simp [List.map, jsIdx, jsNumber_vb0, jsNumber_vb100, jsNumber_vb200]
  have h3 : jsIdx ((splitCh ' ' "0 0 100 200").map jsNumber) 3 = some 200 := by
    rw [hsplit]
    simp [List.map, jsIdx, jsNumber_vb0, jsNumber_vb100, jsNumber_vb200]
  refine ⟨rfl, ?_⟩
  rw [(import_scale_formula 800 1000 svgWithViewBox).1 "0 0 100 200" 100 200
    rfl h2 (by norm_num) h3 (by norm_num)]
  rw [min_def]
  norm_num

/-! ### Canvas objects (the fragment of the fabric object model the source
sets and reads) -/

inductive FabTag
  | path
  | rect
  | circle
  | textbox
  | image
  | group
deriving DecidableEq

structure FabProps where
  pathData : String := ""
  left : JsNum := some 0
  top : JsNum := some 0
  width : JsNum := some 0
  height : JsNum := some 0
  rx : ℚ := 0
  ry : ℚ := 0
  radius : JsNum := some 0
  text : String := ""
  fontSize : JsNum := some 0
  fontFamily : String := ""
  textAlign : String := ""
  editable : Bool := false
  fill : String := ""
  stroke : String := ""
  strokeWidth : ℚ := 0
  opacity : ℚ := 1
  fillOpacity : ℚ := 1
  scaleX : JsNum := some 1
  scaleY : JsNum := some 1
  angle : JsNum := some 0
  selectable : Bool := true
  evented : Bool := true
  hasControls : Bool := true
  hasBorders : Bool := true
  lockMovementX : Bool := false
  lockMovementY : Bool := false
  lockRotation : Bool := false
  lockScalingX : Bool := false
  lockScalingY : Bool := false
  lockUniScaling : Bool := false
  hasRotatingPoint : Bool := false
  cornerColor : String := ""
  cornerSize : ℚ := 0
  transparentCorners : Bool := true
  borderColor : String := ""
  borderScaleFactor : ℚ := 1
  crossOrigin : String := ""
deriving DecidableEq

inductive FabricObject
  | mk (tag : FabTag) (props : FabProps) (children : List FabricObject)

def FabricObject.tag : FabricObject → FabTag
  | .mk t _ _ => t

def FabricObject.props : FabricObject → FabProps
  | .mk _ p _ => p

def FabricObject.children : FabricObject → List FabricObject
  | .mk _ _ cs => cs

/-- External operations supplied by the environment: the trigonometry the
source computes on floats (`Math.cos((angle*π)/180)` etc.) and the
bounding-box dimensions the canvas library computes for a freshly built
group (`group.width`, `group.height`). -/
structure ExtOps where
  cosDeg : JsNum → JsNum
  sinDeg : JsNum → JsNum
  atan2Deg : JsNum → JsNum → JsNum
  groupW : List FabricObject → JsNum
  groupH : List FabricObject → JsNum

/-- A trivial instantiation of the external operations, used to evaluate
the embedding on concrete inputs (`cos 0 = 1`, `sin 0 = 0`). -/
def extTriv : ExtOps :=
  ⟨fun _ => some 1, fun _ => some 0, fun _ _ => some 0, fun _ => some 0,
    fun _ => some 0⟩

/-- The recurring `obj.set({selectable: true, ..., borderScaleFactor: 2})`
block (applied to every created object and to the import group). -/
def setChrome (p : FabProps) : FabProps :=
  { p with
    selectable := true
    evented := true
    hasControls := true
    hasBorders := true
    lockMovementX := false
    lockMovementY := false
    lockRotation := false
    lockScalingX := false
    lockScalingY := false
    lockUniScaling := false
    hasRotatingPoint := true
    cornerColor := "#3B82F6"
    cornerSize := 10
    transparentCorners := false
    borderColor := "#3B82F6"
    borderScaleFactor := 2 }

/-- Embedding of `applyCommonProperties` (Editor.tsx 194–239). -/
def applyCommonProperties (E : ExtOps) (scale : ℚ) (el : Element)
    (obj : FabProps) : FabProps :=
  let style := getComputedStyle el
  let transform := parseTransform E.cosDeg E.sinDeg style.transform
  let obj1 := setChrome
    { obj with
      fill := style.fill
      stroke := style.stroke
      strokeWidth := style.strokeWidth
      opacity := style.opacity
      fillOpacity := style.fillOpacity }
  -- `if (transform)`: `parseTransform` returns a JS object, which is always
  -- truthy, so this branch is always taken; the dead else branch would set
  -- only `scaleX := scale, scaleY := scale` and leave the geometry position.
  { obj1 with
    scaleX := jsMul transform.a (some scale)
    scaleY := jsMul transform.d (some scale)
    angle := E.atan2Deg transform.b transform.a
    left := jsMul transform.e (some scale)
    top := jsMul transform.f (some scale) }

/-- Embedding of `createPath` (Editor.tsx 242–257): `null` when the `d`
attribute is missing or empty. -/
def createPath (E : ExtOps) (scale : ℚ) (el : Element) : Option FabricObject :=
  let pathData := getAttribute el "d"
  if jsTruthyS pathData then
    let style := getComputedStyle el
    some (.mk .path
      (applyCommonProperties E scale el
        { pathData := jsOrS pathData ""
          fill := style.fill
          stroke := style.stroke
          strokeWidth := style.strokeWidth
          opacity := style.opacity
          fillOpacity := style.fillOpacity }) [])
  else none

/-- Embedding of `createRect` (Editor.tsx 260–285). -/
def createRect (E : ExtOps) (scale : ℚ) (el : Element) : FabricObject :=
  let x := jsParseFloat (jsOrS (getAttribute el "x") "0")
  let y := jsParseFloat (jsOrS (getAttribute el "y") "0")
  let width := jsParseFloat (jsOrS (getAttribute el "width") "0")
  let height := jsParseFloat (jsOrS (getAttribute el "height") "0")
  let rx := jsParseFloat (jsOrS (getAttribute el "rx") "0")
  let ry := jsParseFloat (jsOrS (getAttribute el "ry") "0")
  let style := getComputedStyle el
  .mk .rect
    (applyCommonProperties E scale el
      { left := x
        top := y
        width := width
        height := height
        rx := jsNumOr rx 0
        ry := jsNumOr ry 0
        fill := style.fill
        stroke := style.stroke
        strokeWidth := style.strokeWidth
        opacity := style.opacity
        fillOpacity := style.fillOpacity }) []

/-- Embedding of `createCircle` (Editor.tsx 288–307): position is
`(cx - r, cy - r)`. -/
def createCircle (E : ExtOps) (scale : ℚ) (el : Element) : FabricObject :=
  let cx := jsParseFloat (jsOrS (getAttribute el "cx") "0")
  let cy := jsParseFloat (jsOrS (getAttribute el "cy") "0")
  let r := jsParseFloat (jsOrS (getAttribute el "r") "0")
  let style := getComputedStyle el
  .mk .circle
    (applyCommonProperties E scale el
      { left := jsSub cx r
        top := jsSub cy r
        radius := r
        fill := style.fill
        stroke := style.stroke
        strokeWidth := style.strokeWidth
        opacity := style.opacity
        fillOpacity := style.fillOpacity }) []

/-- Embedding of `createText` (Editor.tsx 310–335). -/
def createText (E : ExtOps) (scale : ℚ) (el : Element) : FabricObject :=
  let x := jsParseFloat (jsOrS (getAttribute el "x") "0")
  let y := jsParseFloat (jsOrS (getAttribute el "y") "0")
  let text := el.textContent
  let fontSize := jsParseFloat (jsOrS (getAttribute el "font-size") "16")
  let fontFamily := jsOrS (getAttribute el "font-family") "Arial"
  let textAnchor := jsOrS (getAttribute el "text-anchor") "start"
  let style := getComputedStyle el
  .mk .textbox
    (applyCommonProperties E scale el
      { left := x
        top := y
        text := text
        fontSize := fontSize
        fontFamily := fontFamily
        fill := style.fill
        stroke := style.stroke
        strokeWidth := style.strokeWidth
        opacity := style.opacity
        fillOpacity := style.fillOpacity
        textAlign :=
          if textAnchor = "middle" then "center"
          else if textAnchor = "end" then "right" else "left"
        editable := true }) []

/-! ### Traversal and import (`processElement` / `convertSVGToFabric`,
Editor.tsx 338–441) -/

mutual
/-- Embedding of `processElement` (Editor.tsx 338–400): skip hidden
elements, recurse through `defs`/`g`/`svg`, create one object per
recognized leaf tag, ignore everything else. -/
def processElement (E : ExtOps) (scale : ℚ) : Element → List FabricObject
  | el@(.mk tagName _ computed _ children) =>
    if computed.display = "none" ∨ computed.visibility = "hidden" then []
    else if toLowerJs tagName = "defs" ∨ toLowerJs tagName = "g" then
      processChildren E scale children
    else if toLowerJs tagName = "path" then
      match createPath E scale el with
      | some p => [p]
      | none => []
    else if toLowerJs tagName = "rect" then [createRect E scale el]
    else if toLowerJs tagName = "circle" then [createCircle E scale el]
    else if toLowerJs tagName = "text" then [createText E scale el]
    else if toLowerJs tagName = "svg" then processChildren E scale children
    else []

/-- `Array.from(element.children).forEach(processElement)` with the
produced objects collected in order. -/
def processChildren (E : ExtOps) (scale : ℚ) : List Element → List FabricObject
  | [] => []
  | c :: cs => processElement E scale c ++ processChildren E scale cs
end

/-- Embedding of `convertSVGToFabric` (Editor.tsx 82–441): compute the
scale, traverse, and — whenever at least one object was produced — wrap
all of them in a single synthetic `Group`, scale it and center it on the
canvas. -/
def convertSVGToFabric (E : ExtOps) (canvasWidth canvasHeight : ℚ)
    (svgElement : Element) : List FabricObject :=
  let scale := scaleOf canvasWidth canvasHeight svgElement
  let objects := processElement E scale svgElement
  match objects with
  | [] => []
  | _ :: _ =>
    -- new Group(objects, { selectable: true, ... }); group.scale(scale);
    -- group.set({left: (canvas.width - group.width * scale) / 2, top: ...})
    let props :=
      { setChrome {} with
        scaleX := some scale
        scaleY := some scale
        left := jsDiv (jsSub (some canvasWidth)
          (jsMul (E.groupW objects) (some scale))) (some 2)
        top := jsDiv (jsSub (some canvasHeight)
          (jsMul (E.groupH objects) (some scale))) (some 2) }
    [.mk .group props objects]

/-- Model of the SVG branch of `loadTemplate` (Editor.tsx 635–681): an
empty result shows a destructive-variant warning toast and leaves the
canvas untouched; otherwise the objects are added (and, if more than one,
replaced by one enclosing group — `canvas.remove` removes by object
identity exactly the objects just added).  The boolean records whether
the "no editable elements" warning was shown. -/
def loadSVGBranch (canvasObjects fabricObjects : List FabricObject) :
    List FabricObject × Bool :=
  if fabricObjects.length = 0 then (canvasObjects, true)
  else if fabricObjects.length > 1 then
    (canvasObjects ++ [.mk .group (setChrome {}) fabricObjects], false)
  else (canvasObjects ++ fabricObjects, false)

/-- The document `<svg width="100" height="50"><rect width="100"
height="50"/></svg>`: its traversal yields exactly one drawable node. -/
def singleRectSVG : Element :=
  .mk "svg" [("width", "100"), ("height", "50")] {} ""
    [.mk "rect" [("width", "100"), ("height", "50")] {} "" []]

/-- Claim C3 is false at a concrete input: importing a document whose
traversal yields exactly one node (a rect) returns that node wrapped in a
synthetic Group, not unwrapped. -/
theorem import_single_node_wrapped :
    (processElement extTriv (scaleOf 800 1000 singleRectSVG) singleRectSVG).length
      = 1 ∧
    (∀ o ∈ processElement extTriv (scaleOf 800 1000 singleRectSVG) singleRectSVG,
      o.tag = FabTag.rect) ∧
    (∀ g ∈ convertSVGToFabric extTriv 800 1000 singleRectSVG,
      g.tag = FabTag.group) := by
  refine ⟨by decide, by decide, by decide⟩

/-- Claim C3 (amended): whenever the traversal yields at least one node —
including exactly one — the importer wraps all produced nodes in a single
synthetic Group; only an empty traversal produces no output. -/
theorem import_wraps_every_nonempty_result (E : ExtOps) (cw ch : ℚ)
    (el : Element)
    (h : processElement E (scaleOf cw ch el) el ≠ []) :
    (convertSVGToFabric E cw ch el).length = 1 ∧
    ∀ g ∈ convertSVGToFabric E cw ch el,
      g.tag = FabTag.group ∧
      g.children = processElement E (scaleOf cw ch el) el := by
  rw [convertSVGToFabric]
  cases hobj : processElement E (scaleOf cw ch el) el with
  | nil => exact absurd hobj h
  | cons o os =>
    refine ⟨rfl, ?_⟩
    intro g hg
    rw [List.mem_singleton] at hg
    subst hg
    exact ⟨rfl, rfl⟩

/-- Witness for the amended Claim C3 at the single-rect document. -/
theorem import_wraps_every_nonempty_result_witness :
    processElement extTriv (scaleOf 800 1000 singleRectSVG) singleRectSVG ≠ [] ∧
    (convertSVGToFabric extTriv 800 1000 singleRectSVG).length = 1 ∧
    ∀ g ∈ convertSVGToFabric extTriv 800 1000 singleRectSVG,
      g.tag = FabTag.group ∧
      g.children
        = processElement extTriv (scaleOf 800 1000 singleRectSVG) singleRectSVG :=
  ⟨List.ne_nil_of_length_pos (by decide),
    import_wraps_every_nonempty_result extTriv 800 1000 singleRectSVG
      (List.ne_nil_of_length_pos (by decide))⟩

/-- The document `<svg><rect visibility:hidden/></svg>` (the only child is
hidden via browser-computed `visibility: hidden`). -/
def hiddenOnlySVG : Element :=
  .mk "svg" [] {} ""
    [.mk "rect" [("width", "10"), ("height", "10")]
      { visibility := "hidden" } "" []]

/-- Claim C9: a traversal yielding zero drawable nodes makes the import
return no objects — the `NoDrawableContent` outcome, represented by the
empty object list — and the caller shows a warning and leaves the canvas
unchanged; never a fatal abort. -/
theorem import_zero_nodes_recoverable (E : ExtOps) (cw ch : ℚ) (el : Element)
    (canvas : List FabricObject)
    (h : processElement E (scaleOf cw ch el) el = []) :
    convertSVGToFabric E cw ch el = [] ∧
    loadSVGBranch canvas (convertSVGToFabric E cw ch el) = (canvas, true) := by
  have hconv : convertSVGToFabric E cw ch el = [] := by
    rw [convertSVGToFabric]
    rw [h]
  exact ⟨hconv, by rw [hconv]; rfl⟩

/-- Witness for Claim C9: a document whose only element is hidden yields
zero nodes; the canvas (here holding one prior rect) is unchanged and the
warning is shown. -/
theorem import_zero_nodes_recoverable_witness :
    processElement extTriv (scaleOf 800 1000 hiddenOnlySVG) hiddenOnlySVG = [] ∧
    convertSVGToFabric extTriv 800 1000 hiddenOnlySVG = [] ∧
    loadSVGBranch [.mk .rect {} []]
      (convertSVGToFabric extTriv 800 1000 hiddenOnlySVG)
      = ([.mk .rect {} []], true) :=
  ⟨List.length_eq_zero.mp (by decide),
    import_zero_nodes_recoverable extTriv 800 1000 hiddenOnlySVG
      [.mk .rect {} []] (List.length_eq_zero.mp (by decide))⟩

/-- Claim C10: every leaf constructor funnels through
`applyCommonProperties`, whose transform branch is always taken, so the
final position is `(e·scale, f·scale)` from the parsed matrix; a leaf
element with no `transform` attribute therefore ends at `(0,0)`,
overriding the geometry position (`x`/`y`, or `cx-r`/`cy-r`) assigned at
construction. -/
theorem leaf_position_from_transform (E : ExtOps) (scale : ℚ) (el : Element) :
    (∀ obj : FabProps,
      (applyCommonProperties E scale el obj).left
        = jsMul (parseTransform E.cosDeg E.sinDeg
            (getComputedStyle el).transform).e (some scale) ∧
      (applyCommonProperties E scale el obj).top
        = jsMul (parseTransform E.cosDeg E.sinDeg
            (getComputedStyle el).transform).f (some scale)) ∧
    (getAttribute el "transform" = none →
      (createRect E scale el).props.left = some 0 ∧
      (createRect E scale el).props.top = some 0 ∧
      (createCircle E scale el).props.left = some 0 ∧
      (createCircle E scale el).props.top = some 0 ∧
      (createText E scale el).props.left = some 0 ∧
      (createText E scale el).props.top = some 0 ∧
      ∀ p, createPath E scale el = some p →
        p.props.left = some 0 ∧ p.props.top = some 0) := by
  have htf : ∀ obj : FabProps,
      (applyCommonProperties E scale el obj).left
        = jsMul (parseTransform E.cosDeg E.sinDeg
            (getComputedStyle el).transform).e (some scale) ∧
      (applyCommonProperties E scale el obj).top
        = jsMul (parseTransform E.cosDeg E.sinDeg
            (getComputedStyle el).transform).f (some scale) :=
    fun obj => ⟨rfl, rfl⟩
  refine ⟨htf, ?_⟩
  intro hno
  have hstr : (getComputedStyle el).transform = "" := by
    simp [getComputedStyle, hno, jsOrS]
  have hzero : ∀ obj : FabProps,
      (applyCommonProperties E scale el obj).left = some 0 ∧
      (applyCommonProperties E scale el obj).top = some 0 := by
    intro obj
    have h1 := (htf obj).1
    have h2 := (htf obj).2
    rw [hstr] at h1 h2
    rw [parseTransform] at h1 h2
    simp only [if_pos rfl, idMatrix] at h1 h2
    rw [h1, h2]
    constructor <;> simp [jsMul]
  refine ⟨(hzero _).1, (hzero _).2, (hzero _).1, (hzero _).2, (hzero _).1,
    (hzero _).2, ?_⟩
  intro p hp
  rw [createPath] at hp
  by_cases hd : jsTruthyS (getAttribute el "d") = true
  · rw [if_pos hd] at hp
    cases hp
    exact ⟨(hzero _).1, (hzero _).2⟩
  · rw [if_neg hd] at hp
    cases hp

/-- Witness for Claim C10: a rect at `x=50, y=60` with no transform
attribute is imported at position `(0,0)`. -/
theorem leaf_position_from_transform_witness :
    getAttribute
      (Element.mk "rect" [("x", "50"), ("y", "60"), ("width", "100")] {} "" [])
      "transform" = none ∧
    (createRect extTriv 2
      (Element.mk "rect" [("x", "50"), ("y", "60"), ("width", "100")] {} "" [])
      ).props.left = some 0 :=
  ⟨rfl, ((leaf_position_from_transform extTriv 2
    (Element.mk "rect" [("x", "50"), ("y", "60"), ("width", "100")] {} "" [])).2
    rfl).1⟩

/-! ### Pointer interaction (`initializeFabric` handlers, Editor.tsx
489–534) -/

/-- Index-based update of a canvas object list (fabric objects are
mutated by reference; the index identifies the object). -/
def modifyIdx {α : Type} (f : α → α) : ℕ → List α → List α
  | _, [] => []
  | 0, a :: as => f a :: as
  | n + 1, a :: as => a :: modifyIdx f n as

theorem modifyIdx_getElem_ne {α : Type} (f : α → α) (l : List α) (i j : ℕ)
    (h : j ≠ i) : (modifyIdx f i l)[j]? = l[j]? := by
  induction l generalizing i j with
  | nil => simp [modifyIdx]
  | cons a as ih =>
    cases i with
    | zero =>
      cases j with
      | zero => exact absurd rfl h
      | succ m => simp [modifyIdx]
    | succ n =>
      cases j with
      | zero => simp [modifyIdx]
      | succ m => simpa [modifyIdx] using ih n m (by omega)

theorem modifyIdx_getElem_eq {α : Type} (f : α → α) (l : List α) (i : ℕ) :
    (modifyIdx f i l)[i]? = (l[i]?).map f := by
  induction l generalizing i with
  | nil => simp [modifyIdx]
  | cons a as ih =>
    cases i with
    | zero => simp [modifyIdx]
    | succ n => simpa [modifyIdx] using ih n

/-- `activeObject.set({left: activeObject.left + deltaX, top:
activeObject.top + deltaY})`. -/
def FabricObject.translateBy (dx dy : ℚ) : FabricObject → FabricObject
  | .mk t p cs =>
    .mk t { p with left := jsAdd p.left (some dx), top := jsAdd p.top (some dy) } cs

/-- The editor's interaction state: the canvas object list, the active
object (an index into it — fabric stores the object reference), and the
closure variables `isDragging`, `lastPosX`, `lastPosY` of
`initializeFabric`. -/
structure EditorState where
  objects : List FabricObject
  active : Option ℕ
  isDragging : Bool
  lastPosX : ℚ
  lastPosY : ℚ
deriving Inhabited

/-- A pointer event as seen by the handlers.  `canvas.findTarget` is the
canvas library's hit test; its result (the hit object, as an index) comes
with the event. -/
inductive PEvent
  | down (hit : Option ℕ) (px py : ℚ)
  | move (px py : ℚ)
  | up

/-- Embedding of the `mouse:down` / `mouse:move` / `mouse:up` handlers
registered in `initializeFabric` (Editor.tsx 495–534).  Note that the
`mouse:down` handler has no else branch: a pointer-down that hits nothing
changes nothing. -/
def stepEvent (s : EditorState) : PEvent → EditorState
  | .down hit px py =>
    match hit with
    | some i =>
      { s with
        isDragging := true
        lastPosX := px
        lastPosY := py
        active := some i }
    | none => s
  | .move px py =>
    if s.isDragging then
      match s.active with
      | some i =>
        let deltaX := px - s.lastPosX
        let deltaY := py - s.lastPosY
        { s with
          objects := modifyIdx (FabricObject.translateBy deltaX deltaY) i s.objects
          lastPosX := px
          lastPosY := py }
      | none => s
    else s
  | .up => { s with isDragging := false }

/-- Claim C6: pointer-down on node `i`, pointer-move by `(dx,dy)`,
pointer-up: node `i`'s translation terms increase by exactly `(dx,dy)`
and every other node is untouched. -/
theorem drag_translates_selected (s : EditorState) (i : ℕ) (px py dx dy l t : ℚ)
    (hl : (s.objects[i]?).map (fun o => o.props.left) = some (some l))
    (ht : (s.objects[i]?).map (fun o => o.props.top) = some (some t)) :
    ((stepEvent (stepEvent (stepEvent s (.down (some i) px py))
        (.move (px + dx) (py + dy))) .up).objects[i]?).map
        (fun o => o.props.left) = some (some (l + dx)) ∧
    ((stepEvent (stepEvent (stepEvent s (.down (some i) px py))
        (.move (px + dx) (py + dy))) .up).objects[i]?).map
        (fun o => o.props.top) = some (some (t + dy)) ∧
    (∀ j, j ≠ i →
      (stepEvent (stepEvent (stepEvent s (.down (some i) px py))
        (.move (px + dx) (py + dy))) .up).objects[j]? = s.objects[j]?) := by
  cases hobj : s.objects[i]? with
  | none => rw [hobj] at hl; cases hl
  | some o =>
    rw [hobj] at hl ht
    simp only [Option.map_some', Option.some.injEq] at hl ht
    have hstep : (stepEvent (stepEvent (stepEvent s (.down (some i) px py))
        (.move (px + dx) (py + dy))) .up).objects
        = modifyIdx (FabricObject.translateBy (px + dx - px) (py + dy - py)) i
            s.objects := by
      simp [stepEvent]
    refine ⟨?_, ?_, ?_⟩
    · rw [hstep, modifyIdx_getElem_eq, hobj]
      cases o with
      | mk tg pr cs =>
        simp only [FabricObject.props] at hl
        simp [FabricObject.translateBy, FabricObject.props, jsAdd, hl]
    · rw [hstep, modifyIdx_getElem_eq, hobj]
      cases o with
      | mk tg pr cs =>
        simp only [FabricObject.props] at ht
        simp [FabricObject.translateBy, FabricObject.props, jsAdd, ht]
    · intro j hj
      rw [hstep, modifyIdx_getElem_ne _ _ _ _ hj]

/-- Witness for Claim C6: dragging the single rect at `(5,7)` by `(3,4)`
leaves it at `(8,11)`. -/
theorem drag_translates_selected_witness :
    (((stepEvent (stepEvent (stepEvent
        ⟨[.mk .rect { left := some 5, top := some 7 } []], none, false, 0, 0⟩
        (.down (some 0) 100 100)) (.move (100 + 3) (100 + 4))) .up).objects[0]?).map
        (fun o => o.props.left) = some (some (5 + 3))) ∧
    (((stepEvent (stepEvent (stepEvent
        ⟨[.mk .rect { left := some 5, top := some 7 } []], none, false, 0, 0⟩
        (.down (some 0) 100 100)) (.move (100 + 3) (100 + 4))) .up).objects[0]?).map
        (fun o => o.props.top) = some (some (7 + 4))) :=
  ⟨(drag_translates_selected
      ⟨[.mk .rect { left := some 5, top := some 7 } []], none, false, 0, 0⟩
      0 100 100 3 4 5 7 rfl rfl).1,
    (drag_translates_selected
      ⟨[.mk .rect { left := some 5, top := some 7 } []], none, false, 0, 0⟩
      0 100 100 3 4 5 7 rfl rfl).2.1⟩

/-- A state with one object on the canvas and an active selection. -/
def selectedState : EditorState :=
  ⟨[.mk .rect {} []], some 0, false, 0, 0⟩

/-- Claim C7 is false at a concrete state: with object 0 selected, a
pointer-down that hits nothing leaves the selection in place (the
`mouse:down` handler has no else branch), while the claim says the
selection becomes empty. -/
theorem empty_pointer_down_keeps_selection :
    (stepEvent selectedState (.down none 500 500)).active = some 0 ∧
    (stepEvent selectedState (.down none 500 500)).active ≠ none :=
  ⟨rfl, by simp [stepEvent, selectedState]⟩

/-- Claim C7 (amended): a pointer-down that hits no object changes the
state in no way at all — no drag starts and the controller stays idle,
but the selection keeps its previous value instead of being cleared. -/
theorem empty_pointer_down_noop (s : EditorState) (px py : ℚ) :
    stepEvent s (.down none px py) = s := rfl

/-! ### The save-time property allow-list (`handleSave`, Editor.tsx
963–968) -/

/-- The exact extra-property list passed to `fabricCanvas.toJSON([...])`
in `handleSave`. -/
def propertiesToInclude : List String :=
  ["selectable", "evented", "hasControls", "hasBorders",
   "lockMovementX", "lockMovementY", "lockRotation", "lockScalingX",
   "lockScalingY", "lockUniScaling", "hasRotatingPoint", "cornerColor",
   "cornerSize", "transparentCorners", "borderColor", "borderScaleFactor",
   "editable"]

/-- Claim C8 is false at the concrete allow-list: `cornerColor` — a
control-handle styling field, thus a "transient UI-only field" — is
persisted, and the claimed flag `locked` is not in the list at all. -/
theorem save_allowlist_counterexample :
    "cornerColor" ∈ propertiesToInclude ∧
    "cornerColor" ∉ (["selectable", "evented", "locked"] : List String) ∧
    "locked" ∉ propertiesToInclude := by
  refine ⟨by decide, by decide, by decide⟩

/-- Claim C8 (amended): `handleSave` passes a 17-entry allow-list that
does contain `selectable` and `evented` but no `locked` flag; it also
persists the six `lock*` flags and the control-handle styling fields
(`hasControls`, `hasBorders`, `hasRotatingPoint`, `cornerColor`,
`cornerSize`, `transparentCorners`, `borderColor`, `borderScaleFactor`)
plus `editable`. -/
theorem save_allowlist_contents :
    "selectable" ∈ propertiesToInclude ∧
    "evented" ∈ propertiesToInclude ∧
    "locked" ∉ propertiesToInclude ∧
    (∀ s ∈ (["hasControls", "hasBorders", "hasRotatingPoint", "cornerColor",
        "cornerSize", "transparentCorners", "borderColor",
        "borderScaleFactor", "editable", "lockMovementX", "lockMovementY",
        "lockRotation", "lockScalingX", "lockScalingY",
        "lockUniScaling"] : List String), s ∈ propertiesToInclude) ∧
    propertiesToInclude.length = 17 := by
  refine ⟨by decide, by decide, by decide, by decide, by decide⟩

/-! ### The document codec (spec §4.5) and the load path of `loadTemplate`

The serializer/deserializer themselves (`fabricCanvas.toJSON` /
`canvas.loadFromJSON`) are canvas-library code, not part of this
repository; they are modelled from the spec.  The post-load flag override
IS repository code (Editor.tsx 616–622) and is composed with them. -/

structure NodeFlags where
  selectable : Bool
  evented : Bool
  locked : Bool
deriving DecidableEq

structure NodeStyle where
  fill : String
  stroke : String
  strokeWidth : ℚ
  opacity : ℚ
  fillOpacity : ℚ
deriving DecidableEq

structure Affine where
  a : ℚ
  b : ℚ
  c : ℚ
  d : ℚ
  e : ℚ
  f : ℚ
deriving DecidableEq

/-- Modelled from the spec: the `Node` tagged union of §3 — the five leaf
variants plus `Group`, each carrying style, transform, id and the
interaction flags `{selectable, evented, locked}`. -/
inductive Node
  | path (commands : String) (style : NodeStyle) (tf : Affine) (id : String)
      (flags : NodeFlags)
  | rect (x y w h rx ry : ℚ) (style : NodeStyle) (tf : Affine) (id : String)
      (flags : NodeFlags)
  | circle (cx cy r : ℚ) (style : NodeStyle) (tf : Affine) (id : String)
      (flags : NodeFlags)
  | text (x y : ℚ) (content : String) (fontSize : ℚ)
      (fontFamily align : String) (style : NodeStyle) (tf : Affine)
      (id : String) (flags : NodeFlags)
  | image (sourceRef : String) (naturalWidth naturalHeight : ℚ)
      (style : NodeStyle) (tf : Affine) (id : String) (flags : NodeFlags)
  | group (children : List Node) (style : NodeStyle) (tf : Affine)
      (id : String) (flags : NodeFlags)

def nodeFlags : Node → NodeFlags
  | .path _ _ _ _ fl => fl
  | .rect _ _ _ _ _ _ _ _ _ fl => fl
  | .circle _ _ _ _ _ _ fl => fl
  | .text _ _ _ _ _ _ _ _ _ fl => fl
  | .image _ _ _ _ _ _ fl => fl
  | .group _ _ _ _ fl => fl

/-- One persisted node of the `StructuredDocument`: a variant tag (a
string, so that unknown variants can exist), the allow-listed fields, and
children for groups. -/
structure DocFields where
  commands : String := ""
  x : ℚ := 0
  y : ℚ := 0
  w : ℚ := 0
  h : ℚ := 0
  rx : ℚ := 0
  ry : ℚ := 0
  cx : ℚ := 0
  cy : ℚ := 0
  r : ℚ := 0
  content : String := ""
  fontSize : ℚ := 0
  fontFamily : String := ""
  align : String := ""
  sourceRef : String := ""
  naturalWidth : ℚ := 0
  naturalHeight : ℚ := 0
  style : NodeStyle := ⟨"", "", 0, 1, 1⟩
  tf : Affine := ⟨1, 0, 0, 1, 0, 0⟩
  id : String := ""
  selectable : Bool := true
  evented : Bool := true
  locked : Bool := false
deriving DecidableEq

inductive DocNode
  | mk (tag : String) (fields : DocFields) (children : List DocNode)

mutual
/-- Modelled from the spec: `serialize` (§4.5) — emit the variant tag, the
geometry fields, the resolved style, the transform, the id, and exactly
the allow-listed interaction flags `{selectable, evented, locked}`. -/
def serializeNode : Node → DocNode
  | .path commands style tf id fl =>
    .mk "path"
      { commands := commands
        style := style
        tf := tf
        id := id
        selectable := fl.selectable
        evented := fl.evented
        locked := fl.locked } []
  | .rect x y w h rx ry style tf id fl =>
    .mk "rect"
      { x := x
        y := y
        w := w
        h := h
        rx := rx
        ry := ry
        style := style
        tf := tf
        id := id
        selectable := fl.selectable
        evented := fl.evented
        locked := fl.locked } []
  | .circle cx cy r style tf id fl =>
    .mk "circle"
      { cx := cx
        cy := cy
        r := r
        style := style
        tf := tf
        id := id
        selectable := fl.selectable
        evented := fl.evented
        locked := fl.locked } []
  | .text x y content fontSize fontFamily align style tf id fl =>
    .mk "text"
      { x := x
        y := y
        content := content
        fontSize := fontSize
        fontFamily := fontFamily
        align := align
        style := style
        tf := tf
        id := id
        selectable := fl.selectable
        evented := fl.evented
        locked := fl.locked } []
  | .image sourceRef naturalWidth naturalHeight style tf id fl =>
    .mk "image"
      { sourceRef := sourceRef
        naturalWidth := naturalWidth
        naturalHeight := naturalHeight
        style := style
        tf := tf
        id := id
        selectable := fl.selectable
        evented := fl.evented
        locked := fl.locked } []
  | .group children style tf id fl =>
    .mk "group"
      { style := style
        tf := tf
        id := id
        selectable := fl.selectable
        evented := fl.evented
        locked := fl.locked }
      (serializeList children)

def serializeList : List Node → List DocNode
  | [] => []
  | n :: ns => serializeNode n :: serializeList ns
end

mutual
/-- Modelled from the spec: `deserialize` (§4.5/§7) — rebuild each node
from its tagged fields; an unrecognized variant tag is the
`UnknownNodeVariant` case, handled with the spec-mandated default policy
of skipping that node (with a warning) rather than aborting the load. -/
def deserializeNode : DocNode → Option Node
  | .mk tag f children =>
    if tag = "path" then
      some (.path f.commands f.style f.tf f.id ⟨f.selectable, f.evented, f.locked⟩)
    else if tag = "rect" then
      some (.rect f.x f.y f.w f.h f.rx f.ry f.style f.tf f.id
        ⟨f.selectable, f.evented, f.locked⟩)
    else if tag = "circle" then
      some (.circle f.cx f.cy f.r f.style f.tf f.id
        ⟨f.selectable, f.evented, f.locked⟩)
    else if tag = "text" then
      some (.text f.x f.y f.content f.fontSize f.fontFamily f.align f.style
        f.tf f.id ⟨f.selectable, f.evented, f.locked⟩)
    else if tag = "image" then
      some (.image f.sourceRef f.naturalWidth f.naturalHeight f.style f.tf
        f.id ⟨f.selectable, f.evented, f.locked⟩)
    else if tag = "group" then
      some (.group (deserializeList children) f.style f.tf f.id
        ⟨f.selectable, f.evented, f.locked⟩)
    else none

def deserializeList : List DocNode → List Node
  | [] => []
  | d :: ds =>
    match deserializeNode d with
    | some n => n :: deserializeList ds
    | none => deserializeList ds
end

/-- The `canvas.getObjects().forEach(obj => obj.set({selectable: true,
evented: true, crossOrigin: 'anonymous'}))` step of `loadTemplate`
(Editor.tsx 616–622), applied to the top-level loaded objects only.
`crossOrigin` is not an allow-listed field of the spec-level node model,
so only the two flag writes are visible here. -/
def forceFlags : Node → Node
  | .path c s tf id fl =>
    .path c s tf id { fl with selectable := true, evented := true }
  | .rect x y w h rx ry s tf id fl =>
    .rect x y w h rx ry s tf id { fl with selectable := true, evented := true }
  | .circle cx cy r s tf id fl =>
    .circle cx cy r s tf id { fl with selectable := true, evented := true }
  | .text x y c fs ff al s tf id fl =>
    .text x y c fs ff al s tf id { fl with selectable := true, evented := true }
  | .image sr nw nh s tf id fl =>
    .image sr nw nh s tf id { fl with selectable := true, evented := true }
  | .group cs s tf id fl =>
    .group cs s tf id { fl with selectable := true, evented := true }

/-- The repository's load path: codec deserialization followed by the
flag override of `loadTemplate`. -/
def loadDocument (doc : List DocNode) : List Node :=
  (deserializeList doc).map forceFlags

mutual
theorem deserialize_serialize_node (n : Node) :
    deserializeNode (serializeNode n) = some n := by
  match n with
  | .path c s tf id fl => simp [serializeNode, deserializeNode]
  | .rect x y w h rx ry s tf id fl => simp [serializeNode, deserializeNode]
  | .circle cx cy r s tf id fl => simp [serializeNode, deserializeNode]
  | .text x y c fs ff al s tf id fl => simp [serializeNode, deserializeNode]
  | .image sr nw nh s tf id fl => simp [serializeNode, deserializeNode]
  | .group cs s tf id fl =>
    simp [serializeNode, deserializeNode, deserialize_serialize_list cs]

theorem deserialize_serialize_list (l : List Node) :
    deserializeList (serializeList l) = l := by
  match l with
  | [] => rfl
  | n :: ns =>
    simp [serializeList, deserializeList, deserialize_serialize_node n,
      deserialize_serialize_list ns]
end

theorem forceFlags_of_flags_set (n : Node)
    (h1 : (nodeFlags n).selectable = true) (h2 : (nodeFlags n).evented = true) :
    forceFlags n = n := by
  cases n <;>
    (rename_i fl; cases fl; simp [nodeFlags] at h1 h2; simp [forceFlags, h1, h2])

/-- The document `[rect with selectable := false]`. -/
def unselectableRect : Node :=
  .rect 0 0 10 10 0 0 ⟨"#fff", "none", 0, 1, 1⟩ ⟨1, 0, 0, 1, 0, 0⟩ "n1"
    ⟨false, true, false⟩

/-- Claim C1 is false at a concrete input: a one-rect document whose node
has the allow-listed flag `selectable = false` does not round-trip — the
load path forces `selectable := true` after `loadFromJSON`, so the
reloaded graph differs from the saved one. -/
theorem roundtrip_counterexample :
    loadDocument (serializeList [unselectableRect]) ≠ [unselectableRect] := by
  intro h
  simp [loadDocument, serializeList, serializeNode, deserializeList,
    deserializeNode, forceFlags, unselectableRect] at h

/-- Claim C1 (amended): the pure codec round-trip
`deserializeList (serializeList gs) = gs` holds for every document built
from the node variants with allow-listed fields, but the repository's
load path additionally forces `selectable := true` and `evented := true`
on the top-level loaded objects; the full save/load round-trip therefore
reproduces the document exactly when every top-level node already carries
`selectable = true` and `evented = true`. -/
theorem roundtrip_with_forced_flags (gs : List Node)
    (h : ∀ n ∈ gs, (nodeFlags n).selectable = true ∧ (nodeFlags n).evented = true) :
    loadDocument (serializeList gs) = gs := by
  rw [loadDocument, deserialize_serialize_list]
  induction gs with
  | nil => rfl
  | cons n ns ih =>
    rw [List.map_cons,
      forceFlags_of_flags_set n (h n (List.mem_cons_self n ns)).1
        (h n (List.mem_cons_self n ns)).2,
      ih (fun m hm => h m (List.mem_cons_of_mem n hm))]

/-- Witness for the amended Claim C1: a group (containing a circle) and a
text node, all flags at their defaults, round-trip exactly. -/
theorem roundtrip_with_forced_flags_witness :
    loadDocument (serializeList
      [.group [.circle 5 5 2 ⟨"red", "none", 0, 1, 1⟩ ⟨1, 0, 0, 1, 0, 0⟩ "c1"
          ⟨true, true, false⟩] ⟨"", "", 0, 1, 1⟩ ⟨1, 0, 0, 1, 3, 4⟩ "g1"
          ⟨true, true, false⟩,
        .text 1 2 "hi" 16 "Arial" "left" ⟨"#000", "none", 0, 1, 1⟩
          ⟨1, 0, 0, 1, 0, 0⟩ "t1" ⟨true, true, true⟩])
      = [.group [.circle 5 5 2 ⟨"red", "none", 0, 1, 1⟩ ⟨1, 0, 0, 1, 0, 0⟩ "c1"
          ⟨true, true, false⟩] ⟨"", "", 0, 1, 1⟩ ⟨1, 0, 0, 1, 3, 4⟩ "g1"
          ⟨true, true, false⟩,
        .text 1 2 "hi" 16 "Arial" "left" ⟨"#000", "none", 0, 1, 1⟩
          ⟨1, 0, 0, 1, 0, 0⟩ "t1" ⟨true, true, true⟩] :=
  roundtrip_with_forced_flags _ (by
    intro n hn
    rcases List.mem_cons.mp hn with h1 | h2
    · subst h1; exact ⟨rfl, rfl⟩
    · rw [List.mem_singleton] at h2; subst h2; exact ⟨rfl, rfl⟩)

end TemplateForge

